import Mathlib

/-!
Verification of the subctl deployment excerpt.

Strings are modelled as `List Char`; Go errors as an inductive `GoError`
with `Option GoError` standing for a possibly-nil `error` value; external
package calls (secret.Ensure, submarinercr.Ensure, generic.RunOnCluster)
as records of functions supplied as parameters.
-/

/-- The separator searched for by removeSchemaPrefix: the characters of "://". -/
def schemaSep : List Char := [':', '/', '/']

/-- Models Go strings.Index for a fixed separator: the index of the first
occurrence of sep in s, or none when sep does not occur (Go returns -1). -/
def strIndex (sep : List Char) : List Char → Option Nat
  | [] => if sep.isPrefixOf [] then some 0 else none
  | c :: t =>
    if sep.isPrefixOf (c :: t) then some 0
    else (strIndex sep t).map (· + 1)

/-- Embedding of removeSchemaPrefix: drops everything up to and including the
first occurrence of "://"; a string without "://" is returned unchanged. -/
def removeSchemaPrefix (brokerURL : List Char) : List Char :=
  match strIndex schemaSep brokerURL with
  | some idx => brokerURL.drop (idx + 3)
  | none => brokerURL

/-- Models Go strings.Split with a single-character separator. -/
def stringsSplit (sep : Char) : List Char → List (List Char)
  | [] => [[]]
  | c :: rest =>
    if c = sep then [] :: stringsSplit sep rest
    else
      match stringsSplit sep rest with
      | [] => [[c]]
      | h :: t => (c :: h) :: t

/-- Embedding of getCustomCoreDNSParams: splits "ns/name" on "/" into a
namespace and a name; with no separator the whole input is the name. -/
def getCustomCoreDNSParams (corednsCustomConfigMap : List Char) : List Char × List Char :=
  if corednsCustomConfigMap ≠ [] then
    let paramList := stringsSplit '/' corednsCustomConfigMap
    if 1 < paramList.length then
      (paramList.getD 0 [], paramList.getD 1 [])
    else
      ([], corednsCustomConfigMap)
  else
    ([], [])

lemma isPrefixOf_iff_exists (l₁ l₂ : List Char) :
    l₁.isPrefixOf l₂ = true ↔ ∃ t, l₂ = l₁ ++ t := by
  induction l₁ generalizing l₂ with
  | nil => simp [List.isPrefixOf]
  | cons a as ih =>
    cases l₂ with
    | nil => simp [List.isPrefixOf]
    | cons b bs =>
      simp only [List.isPrefixOf, Bool.and_eq_true, beq_iff_eq, ih, List.cons_append,
        List.cons.injEq]
      constructor
      · rintro ⟨rfl, t, rfl⟩; exact ⟨t, rfl, rfl⟩
      · rintro ⟨t, rfl, rfl⟩; exact ⟨rfl, t, rfl⟩

lemma strIndex_some_spec (sep : List Char) :
    ∀ (s : List Char) (i : Nat), strIndex sep s = some i →
      sep.isPrefixOf (s.drop i) = true ∧ ∀ j, j < i → sep.isPrefixOf (s.drop j) = false := by
  intro s
  induction s with
  | nil =>
    intro i h
    simp only [strIndex] at h
    split at h
    · rename_i hp
      cases h
      exact ⟨hp, fun j hj => absurd hj (Nat.not_lt_zero j)⟩
    · cases h
  | cons c t ih =>
    intro i h
    simp only [strIndex] at h
    split at h
    · rename_i hp
      cases h
      exact ⟨hp, fun j hj => absurd hj (Nat.not_lt_zero j)⟩
    · rename_i hp
      cases hk : strIndex sep t with
      | none => rw [hk] at h; cases h
      | some k =>
        rw [hk] at h
        injection h with h
        subst h
        have ⟨h1, h2⟩ := ih k hk
        refine ⟨h1, ?_⟩
        intro j hj
        cases j with
        | zero =>
          rw [List.drop_zero]
          exact Bool.eq_false_iff.mpr hp
        | succ m =>
          exact h2 m (Nat.lt_of_succ_lt_succ hj)

lemma strIndex_none_spec (sep : List Char) :
    ∀ s : List Char, strIndex sep s = none →
      ∀ j, sep.isPrefixOf (s.drop j) = false := by
  intro s
  induction s with
  | nil =>
    intro h j
    simp only [strIndex] at h
    split at h
    · cases h
    · rename_i hp
      rw [List.drop_nil]
      exact Bool.eq_false_iff.mpr hp
  | cons c t ih =>
    intro h j
    simp only [strIndex] at h
    split at h
    · cases h
    · rename_i hp
      have ht : strIndex sep t = none := by
        cases hk : strIndex sep t with
        | none => rfl
        | some k => rw [hk] at h; simp at h
      cases j with
      | zero =>
        rw [List.drop_zero]
        exact Bool.eq_false_iff.mpr hp
      | succ m => exact ih ht m

/-- C1 -- removeSchemaPrefix returns the suffix after the first occurrence of
"://" when the input contains "://" (in particular
"https://broker.example.com" maps to "broker.example.com"), and returns a
"://"-free input unchanged. -/
theorem removeSchemaPrefix_correct (s : List Char) :
    ((∃ p q, s = p ++ schemaSep ++ q) →
      ∃ pre, s = pre ++ schemaSep ++ removeSchemaPrefix s ∧
        ∀ p q, s = p ++ schemaSep ++ q → pre.length ≤ p.length) ∧
    ((¬ ∃ p q, s = p ++ schemaSep ++ q) → removeSchemaPrefix s = s) ∧
    removeSchemaPrefix ("https://broker.example.com".toList) = "broker.example.com".toList := by
  refine ⟨?_, ?_, by decide⟩
  · rintro ⟨p, q, hpq⟩
    cases hidx : strIndex schemaSep s with
    | none =>
      exfalso
      have hfalse := strIndex_none_spec schemaSep s hidx p.length
      rw [hpq, List.append_assoc, List.drop_left] at hfalse
      have htrue : schemaSep.isPrefixOf (schemaSep ++ q) = true :=
        (isPrefixOf_iff_exists _ _).mpr ⟨q, rfl⟩
      simp [htrue] at hfalse
    | some i =>
      have ⟨h1, h2⟩ := strIndex_some_spec schemaSep s i hidx
      rw [isPrefixOf_iff_exists] at h1
      obtain ⟨t, ht⟩ := h1
      have hres : removeSchemaPrefix s = s.drop (i + 3) := by
        simp [removeSchemaPrefix, hidx]
      have hlen : i < s.length := by
        by_contra hle
        push_neg at hle
        rw [List.drop_eq_nil_of_le hle] at ht
        simp [schemaSep] at ht
      refine ⟨s.take i, ?_, ?_⟩
      · have hsplit : s = s.take i ++ s.drop i := (List.take_append_drop i s).symm
        have hdrop3 : s.drop (i + 3) = t := by
          have : s.drop (i + 3) = (s.drop i).drop 3 := by
            rw [List.drop_drop]
          rw [this, ht]
          have : schemaSep.length = 3 := by decide
          rw [← this, List.drop_left]
        rw [hres, hdrop3]
        calc s = s.take i ++ s.drop i := hsplit
        _ = s.take i ++ (schemaSep ++ t) := by rw [ht]
        _ = s.take i ++ schemaSep ++ t := by rw [List.append_assoc]
      · intro p' q' hpq'
        have htk : (s.take i).length = i := List.length_take_of_le (Nat.le_of_lt hlen)
        rw [htk]
        by_contra hlt
        push_neg at hlt
        have hfalse := h2 p'.length hlt
        rw [hpq', List.append_assoc, List.drop_left] at hfalse
        have htrue : schemaSep.isPrefixOf (schemaSep ++ q') = true :=
          (isPrefixOf_iff_exists _ _).mpr ⟨q', rfl⟩
        simp [htrue] at hfalse
  · intro hno
    cases hidx : strIndex schemaSep s with
    | none => simp [removeSchemaPrefix, hidx]
    | some i =>
      exfalso
      have ⟨h1, _⟩ := strIndex_some_spec schemaSep s i hidx
      rw [isPrefixOf_iff_exists] at h1
      obtain ⟨t, ht⟩ := h1
      exact hno ⟨s.take i, t, by
        conv_lhs => rw [← List.take_append_drop i s]
        rw [ht, List.append_assoc]⟩

/-- Witness for C1 at the concrete input "https://broker.example.com". -/
theorem removeSchemaPrefix_correct_witness :
    ∃ pre, "https://broker.example.com".toList =
        pre ++ schemaSep ++ removeSchemaPrefix ("https://broker.example.com".toList) ∧
      ∀ p q, "https://broker.example.com".toList = p ++ schemaSep ++ q →
        pre.length ≤ p.length :=
  ( removeSchemaPrefix_correct ("https://broker.example.com".toList)).1
    ⟨"https".toList, "broker.example.com".toList, by decide⟩

lemma stringsSplit_ne_nil (sep : Char) (s : List Char) : stringsSplit sep s ≠ [] := by
  cases s with
  | nil => simp [stringsSplit]
  | cons c rest =>
    simp only [stringsSplit]
    split
    · simp
    · split
      · simp
      · simp

lemma stringsSplit_no_sep (sep : Char) (s : List Char) (h : sep ∉ s) :
    stringsSplit sep s = [s] := by
  induction s with
  | nil => rfl
  | cons c rest ih =>
    simp only [List.mem_cons, not_or] at h
    simp only [stringsSplit]
    rw [if_neg (fun hc => h.1 hc.symm), ih h.2]

lemma stringsSplit_first (sep : Char) (a rest : List Char) (h : sep ∉ a) :
    stringsSplit sep (a ++ sep :: rest) = a :: stringsSplit sep rest := by
  induction a with
  | nil => simp [stringsSplit]
  | cons c a' ih =>
    simp only [List.mem_cons, not_or] at h
    simp only [List.cons_append, stringsSplit]
    rw [if_neg (fun hc => h.1 hc.symm)]
    simp only [List.append_eq]
    rw [ih h.2]

/-- C2 -- getCustomCoreDNSParams maps "ns/name" to namespace "ns" and name
"name", maps any non-empty input without "/" to an empty namespace and the
input as the name, and maps the empty string to two empty strings. -/
theorem getCustomCoreDNSParams_correct :
    getCustomCoreDNSParams ("ns/name".toList) = ("ns".toList, "name".toList) ∧
    (∀ s : List Char, s ≠ [] → '/' ∉ s → getCustomCoreDNSParams s = ([], s)) ∧
    getCustomCoreDNSParams [] = ([], []) := by
  refine ⟨by decide, ?_, by decide⟩
  intro s hne hsep
  simp only [getCustomCoreDNSParams, if_pos hne, stringsSplit_no_sep '/' s hsep]
  simp

/-- Witness for C2 at the concrete separator-free input "name". -/
theorem getCustomCoreDNSParams_correct_witness :
    getCustomCoreDNSParams ("name".toList) = ([], "name".toList) :=
  getCustomCoreDNSParams_correct.2.1 ("name".toList) (by decide) (by decide)

/-- C10 -- on an input whose first two "/"-separated components are a and b
(with any further components after a second "/"), getCustomCoreDNSParams
returns namespace a and name b, discarding everything after the second "/". -/
theorem getCustomCoreDNSParams_multi_separator (a b c : List Char)
    (ha : '/' ∉ a) (hb : '/' ∉ b) :
    getCustomCoreDNSParams (a ++ '/' :: (b ++ '/' :: c)) = (a, b) := by
  have hne : a ++ '/' :: (b ++ '/' :: c) ≠ [] := by
    cases a <;> simp
  have hsplit : stringsSplit '/' (a ++ '/' :: (b ++ '/' :: c)) =
      a :: b :: stringsSplit '/' c := by
    rw [stringsSplit_first '/' a _ ha, stringsSplit_first '/' b _ hb]
  simp only [getCustomCoreDNSParams, if_pos hne, hsplit]
  simp [List.getD]

/-- Witness for C10 at the concrete input "a/b/c". -/
theorem getCustomCoreDNSParams_multi_separator_witness :
    getCustomCoreDNSParams ("a/b/c".toList) = ("a".toList, "b".toList) :=
  getCustomCoreDNSParams_multi_separator ("a".toList) ("b".toList) ("c".toList)
    (by decide) (by decide)

/-- C6 -- removeSchemaPrefix and getCustomCoreDNSParams are deterministic
functions of their input string alone: evaluations at equal inputs are equal. -/
theorem helpers_pure_deterministic (s₁ s₂ : List Char) (h : s₁ = s₂) :
    removeSchemaPrefix s₁ = removeSchemaPrefix s₂ ∧
    getCustomCoreDNSParams s₁ = getCustomCoreDNSParams s₂ := by
  subst h
  exact ⟨rfl, rfl⟩

/-- Witness for C6 at the concrete input "https://x". -/
theorem helpers_pure_deterministic_witness :
    removeSchemaPrefix ("https://x".toList) = removeSchemaPrefix ("https://x".toList) ∧
    getCustomCoreDNSParams ("https://x".toList) = getCustomCoreDNSParams ("https://x".toList) :=
  helpers_pure_deterministic ("https://x".toList) ("https://x".toList) rfl

/-- Go errors: a base error message or an error wrapped with a context message,
as produced by the reporter's contextual wrapping. -/
inductive GoError where
  | base : List Char → GoError
  | wrapped : List Char → GoError → GoError
deriving DecidableEq

/-- Models the external admiral reporter's status.Error: a nil error is passed
through as nil, a non-nil error is returned wrapped with the context message. -/
def statusError : Option GoError → List Char → Option GoError
  | none, _ => none
  | some e, msg => some (GoError.wrapped msg e)

/-- Models the parts of a Kubernetes v1.Secret this code reads: the object
name and the Data map from keys to byte strings (bytes as Nat values). -/
structure Secret where
  Name : List Char
  Data : List Char → List Nat

/-- Models the parts of broker.Info this code reads: the broker URL, the
IPsec PSK secret, and whether service discovery is enabled. -/
structure BrokerInfo where
  BrokerURL : List Char
  IPSecPSK : Secret
  ServiceDiscoveryEnabled : Bool

/-- Models broker.Info.IsServiceDiscoveryEnabled. -/
def BrokerInfo.IsServiceDiscoveryEnabled (b : BrokerInfo) : Bool :=
  b.ServiceDiscoveryEnabled

/-- Models the parts of image.RepositoryInfo this code reads. -/
structure RepositoryInfo where
  Name : List Char
  Version : List Char
  Overrides : List (List Char × List Char)

/-- Models the part of globalnet.Config this code reads. -/
structure GlobalnetConfig where
  GlobalCIDR : List Char

/-- The operator HealthCheckSpec fields set by this code. -/
structure HealthCheckSpec where
  Enabled : Bool
  IntervalSeconds : Nat
  MaxPacketLossCount : Nat
deriving DecidableEq

/-- The operator CoreDNSCustomConfig fields set by this code. -/
structure CoreDNSCustomConfig where
  ConfigMapName : List Char
  Namespace : List Char
deriving DecidableEq

/-- The operator SubmarinerSpec fields set by this code; fields the Go struct
literal omits keep their Go zero values as defaults. -/
structure SubmarinerSpec where
  Repository : List Char
  Version : List Char
  CeIPSecNATTPort : Int
  CeIPSecDebug : Bool
  CeIPSecForceUDPEncaps : Bool
  CeIPSecPreferredServer : Bool
  CeIPSecPSK : List Char
  CeIPSecPSKSecret : List Char
  BrokerK8sCA : List Char
  BrokerK8sRemoteNamespace : List Char
  BrokerK8sApiServerToken : List Char
  BrokerK8sApiServer : List Char
  BrokerK8sSecret : List Char
  BrokerK8sInsecure : Bool
  Broker : List Char
  NatEnabled : Bool
  Debug : Bool
  ClusterID : List Char
  ServiceCIDR : List Char
  ClusterCIDR : List Char
  Namespace : List Char
  CableDriver : List Char
  ServiceDiscoveryEnabled : Bool
  ImageOverrides : List (List Char × List Char)
  AirGappedDeployment : Bool
  LoadBalancerEnabled : Bool
  ConnectionHealthCheck : Option HealthCheckSpec
  GlobalCIDR : List Char := []
  CoreDNSCustomConfig : Option CoreDNSCustomConfig := none
  CustomDomains : List (List Char) := []

/-- Embedding of the SubmarinerOptions CLI option struct. -/
structure SubmarinerOptions where
  PreferredServer : Bool
  ForceUDPEncaps : Bool
  NATTraversal : Bool
  IPSecDebug : Bool
  SubmarinerDebug : Bool
  AirGappedDeployment : Bool
  LoadBalancerEnabled : Bool
  HealthCheckEnabled : Bool
  BrokerK8sInsecure : Bool
  NATTPort : Int
  HealthCheckInterval : Nat
  HealthCheckMaxPacketLossCount : Nat
  ClusterID : List Char
  CableDriver : List Char
  CoreDNSCustomConfigMap : List Char
  Repository : List Char
  ImageVersion : List Char
  ServiceCIDR : List Char
  ClusterCIDR : List Char
  CustomDomains : List (List Char)

/-- Modelled from the spec: the fixed operator namespace constant
(internal/constants.OperatorNamespace, not part of the excerpt). -/
def OperatorNamespace : List Char := "submariner-operator".toList

/-- The standard base64 alphabet. -/
def base64Alphabet : List Char :=
  "ABCDEFGHIJKLMNOPQRSTUVWXYZabcdefghijklmnopqrstuvwxyz0123456789+/".toList

/-- Models the external base64.StdEncoding.EncodeToString over byte values. -/
def base64EncodeToString : List Nat → List Char
  | [] => []
  | [b1] =>
    [base64Alphabet.getD (b1 / 4) '=', base64Alphabet.getD (b1 % 4 * 16) '=', '=', '=']
  | [b1, b2] =>
    [base64Alphabet.getD (b1 / 4) '=', base64Alphabet.getD (b1 % 4 * 16 + b2 / 16) '=',
      base64Alphabet.getD (b2 % 16 * 4) '=', '=']
  | b1 :: b2 :: b3 :: rest =>
    base64Alphabet.getD (b1 / 4) '=' ::
      base64Alphabet.getD (b1 % 4 * 16 + b2 / 16) '=' ::
      base64Alphabet.getD (b2 % 16 * 4 + b3 / 64) '=' ::
      base64Alphabet.getD (b3 % 64) '=' :: base64EncodeToString rest

/-- Models the Go string(bytes) conversion of a byte slice read from a secret. -/
def bytesToString (bs : List Nat) : List Char :=
  bs.map (fun b => Char.ofNat b)

/-- Embedding of populateSubmarinerSpec: builds the SubmarinerSpec from the
CLI options, broker info, secrets, globalnet config and repository info. -/
def populateSubmarinerSpec (options : SubmarinerOptions) (brokerInfo : BrokerInfo)
    (brokerSecret : Secret) (pskSecret : Secret) (netconfig : GlobalnetConfig)
    (repositoryInfo : RepositoryInfo) : SubmarinerSpec :=
  let brokerURL := removeSchemaPrefix brokerInfo.BrokerURL
  let submarinerSpec : SubmarinerSpec :=
    { Repository := repositoryInfo.Name
      Version := repositoryInfo.Version
      CeIPSecNATTPort := options.NATTPort
      CeIPSecDebug := options.IPSecDebug
      CeIPSecForceUDPEncaps := options.ForceUDPEncaps
      CeIPSecPreferredServer := options.PreferredServer
      CeIPSecPSK := base64EncodeToString (brokerInfo.IPSecPSK.Data ("psk".toList))
      CeIPSecPSKSecret := pskSecret.Name
      BrokerK8sCA := base64EncodeToString (brokerSecret.Data ("ca.crt".toList))
      BrokerK8sRemoteNamespace := bytesToString (brokerSecret.Data ("namespace".toList))
      BrokerK8sApiServerToken := bytesToString (brokerSecret.Data ("token".toList))
      BrokerK8sApiServer := brokerURL
      BrokerK8sSecret := brokerSecret.Name
      BrokerK8sInsecure := options.BrokerK8sInsecure
      Broker := "k8s".toList
      NatEnabled := options.NATTraversal
      Debug := options.SubmarinerDebug
      ClusterID := options.ClusterID
      ServiceCIDR := options.ServiceCIDR
      ClusterCIDR := options.ClusterCIDR
      Namespace := OperatorNamespace
      CableDriver := options.CableDriver
      ServiceDiscoveryEnabled := brokerInfo.IsServiceDiscoveryEnabled
      ImageOverrides := repositoryInfo.Overrides
      AirGappedDeployment := options.AirGappedDeployment
      LoadBalancerEnabled := options.LoadBalancerEnabled
      ConnectionHealthCheck := some
        { Enabled := options.HealthCheckEnabled
          IntervalSeconds := options.HealthCheckInterval
          MaxPacketLossCount := options.HealthCheckMaxPacketLossCount } }
  let submarinerSpec :=
    if netconfig.GlobalCIDR ≠ [] then
      { submarinerSpec with GlobalCIDR := netconfig.GlobalCIDR }
    else
      submarinerSpec
  let submarinerSpec :=
    if options.CoreDNSCustomConfigMap ≠ [] then
      let p := getCustomCoreDNSParams options.CoreDNSCustomConfigMap
      { submarinerSpec with
          CoreDNSCustomConfig := some { ConfigMapName := p.2, Namespace := p.1 } }
    else
      submarinerSpec
  let submarinerSpec :=
    if 0 < options.CustomDomains.length then
      { submarinerSpec with CustomDomains := options.CustomDomains }
    else
      submarinerSpec
  submarinerSpec

/-- C4 -- populateSubmarinerSpec maps the CLI options field-for-field into the
SubmarinerSpec, with BrokerK8sApiServer obtained from the broker URL by
stripping the schema prefix. -/
theorem populateSubmarinerSpec_field_mapping (options : SubmarinerOptions)
    (brokerInfo : BrokerInfo) (brokerSecret pskSecret : Secret)
    (netconfig : GlobalnetConfig) (repositoryInfo : RepositoryInfo) :
    (populateSubmarinerSpec options brokerInfo brokerSecret pskSecret netconfig
        repositoryInfo).ClusterID = options.ClusterID ∧
    (populateSubmarinerSpec options brokerInfo brokerSecret pskSecret netconfig
        repositoryInfo).ServiceCIDR = options.ServiceCIDR ∧
    (populateSubmarinerSpec options brokerInfo brokerSecret pskSecret netconfig
        repositoryInfo).ClusterCIDR = options.ClusterCIDR ∧
    (populateSubmarinerSpec options brokerInfo brokerSecret pskSecret netconfig
        repositoryInfo).CableDriver = options.CableDriver ∧
    (populateSubmarinerSpec options brokerInfo brokerSecret pskSecret netconfig
        repositoryInfo).CeIPSecNATTPort = options.NATTPort ∧
    (populateSubmarinerSpec options brokerInfo brokerSecret pskSecret netconfig
        repositoryInfo).NatEnabled = options.NATTraversal ∧
    (populateSubmarinerSpec options brokerInfo brokerSecret pskSecret netconfig
        repositoryInfo).Debug = options.SubmarinerDebug ∧
    (populateSubmarinerSpec options brokerInfo brokerSecret pskSecret netconfig
        repositoryInfo).AirGappedDeployment = options.AirGappedDeployment ∧
    (populateSubmarinerSpec options brokerInfo brokerSecret pskSecret netconfig
        repositoryInfo).LoadBalancerEnabled = options.LoadBalancerEnabled ∧
    (populateSubmarinerSpec options brokerInfo brokerSecret pskSecret netconfig
        repositoryInfo).BrokerK8sInsecure = options.BrokerK8sInsecure ∧
    (populateSubmarinerSpec options brokerInfo brokerSecret pskSecret netconfig
        repositoryInfo).BrokerK8sApiServer = removeSchemaPrefix brokerInfo.BrokerURL := by
  simp only [populateSubmarinerSpec]
  split <;> split <;> split <;> simp

/-- C8 -- every SubmarinerSpec produced by populateSubmarinerSpec has broker
type "k8s", the operator namespace, and a non-nil ConnectionHealthCheck
carrying the health-check options, whatever HealthCheckEnabled is. -/
theorem populateSubmarinerSpec_fixed_fields (options : SubmarinerOptions)
    (brokerInfo : BrokerInfo) (brokerSecret pskSecret : Secret)
    (netconfig : GlobalnetConfig) (repositoryInfo : RepositoryInfo) :
    (populateSubmarinerSpec options brokerInfo brokerSecret pskSecret netconfig
        repositoryInfo).Broker = "k8s".toList ∧
    (populateSubmarinerSpec options brokerInfo brokerSecret pskSecret netconfig
        repositoryInfo).Namespace = OperatorNamespace ∧
    (populateSubmarinerSpec options brokerInfo brokerSecret pskSecret netconfig
        repositoryInfo).ConnectionHealthCheck = some
      { Enabled := options.HealthCheckEnabled
        IntervalSeconds := options.HealthCheckInterval
        MaxPacketLossCount := options.HealthCheckMaxPacketLossCount } := by
  simp only [populateSubmarinerSpec]
  split <;> split <;> split <;> simp

/-- C9 -- optional SubmarinerSpec fields are set exactly when their source is
non-empty: GlobalCIDR from netconfig, CoreDNSCustomConfig from the custom
config map via getCustomCoreDNSParams, CustomDomains from the options. -/
theorem populateSubmarinerSpec_optional_fields (options : SubmarinerOptions)
    (brokerInfo : BrokerInfo) (brokerSecret pskSecret : Secret)
    (netconfig : GlobalnetConfig) (repositoryInfo : RepositoryInfo) :
    (netconfig.GlobalCIDR ≠ [] →
      (populateSubmarinerSpec options brokerInfo brokerSecret pskSecret netconfig
          repositoryInfo).GlobalCIDR = netconfig.GlobalCIDR) ∧
    (netconfig.GlobalCIDR = [] →
      (populateSubmarinerSpec options brokerInfo brokerSecret pskSecret netconfig
          repositoryInfo).GlobalCIDR = []) ∧
    ((populateSubmarinerSpec options brokerInfo brokerSecret pskSecret netconfig
        repositoryInfo).CoreDNSCustomConfig ≠ none ↔
      options.CoreDNSCustomConfigMap ≠ []) ∧
    (options.CoreDNSCustomConfigMap ≠ [] →
      (populateSubmarinerSpec options brokerInfo brokerSecret pskSecret netconfig
          repositoryInfo).CoreDNSCustomConfig = some
        { ConfigMapName := (getCustomCoreDNSParams options.CoreDNSCustomConfigMap).2
          Namespace := (getCustomCoreDNSParams options.CoreDNSCustomConfigMap).1 }) ∧
    (options.CustomDomains ≠ [] →
      (populateSubmarinerSpec options brokerInfo brokerSecret pskSecret netconfig
          repositoryInfo).CustomDomains = options.CustomDomains) ∧
    (options.CustomDomains = [] →
      (populateSubmarinerSpec options brokerInfo brokerSecret pskSecret netconfig
          repositoryInfo).CustomDomains = []) := by
  simp only [populateSubmarinerSpec]
  split <;> split <;> split <;>
    simp_all [List.length_pos, List.ne_nil_of_length_pos]

/-- Concrete example options used by the witnesses. -/
def optEx : SubmarinerOptions :=
  { PreferredServer := false
    ForceUDPEncaps := false
    NATTraversal := true
    IPSecDebug := false
    SubmarinerDebug := false
    AirGappedDeployment := false
    LoadBalancerEnabled := false
    HealthCheckEnabled := true
    BrokerK8sInsecure := false
    NATTPort := 4500
    HealthCheckInterval := 1
    HealthCheckMaxPacketLossCount := 5
    ClusterID := "east".toList
    CableDriver := "libreswan".toList
    CoreDNSCustomConfigMap := "ns/cm".toList
    Repository := "quay.io/submariner".toList
    ImageVersion := "devel".toList
    ServiceCIDR := "100.92.0.0/16".toList
    ClusterCIDR := "10.242.0.0/16".toList
    CustomDomains := ["example.org".toList] }

/-- Concrete example secret used by the witnesses. -/
def secEx : Secret :=
  { Name := "submariner-ipsec-psk".toList
    Data := fun _ => [] }

/-- Concrete example broker info used by the witnesses. -/
def biEx : BrokerInfo :=
  { BrokerURL := "https://broker.example.com".toList
    IPSecPSK := secEx
    ServiceDiscoveryEnabled := false }

/-- Concrete example globalnet config used by the witnesses. -/
def ncEx : GlobalnetConfig :=
  { GlobalCIDR := "242.0.0.0/8".toList }

/-- Concrete example repository info used by the witnesses. -/
def riEx : RepositoryInfo :=
  { Name := "quay.io/submariner".toList
    Version := "devel".toList
    Overrides := [] }

/-- Witness for C9 at concrete inputs with every optional source non-empty. -/
theorem populateSubmarinerSpec_optional_fields_witness :
    (populateSubmarinerSpec optEx biEx secEx secEx ncEx riEx).GlobalCIDR =
      ncEx.GlobalCIDR ∧
    (populateSubmarinerSpec optEx biEx secEx secEx ncEx riEx).CoreDNSCustomConfig =
      some { ConfigMapName := (getCustomCoreDNSParams optEx.CoreDNSCustomConfigMap).2
             Namespace := (getCustomCoreDNSParams optEx.CoreDNSCustomConfigMap).1 } ∧
    (populateSubmarinerSpec optEx biEx secEx secEx ncEx riEx).CustomDomains =
      optEx.CustomDomains := by
  have h := populateSubmarinerSpec_optional_fields optEx biEx secEx secEx ncEx riEx
  exact ⟨h.1 (by decide), h.2.2.2.1 (by decide), h.2.2.2.2.1 (by decide)⟩

/-- The external calls made by the Submariner deploy operation:
secret.Ensure on the Kubernetes client and submarinercr.Ensure on the
general client, each taking the target namespace. -/
structure DeployEnv where
  secretEnsure : List Char → Secret → Except GoError Secret
  submarinercrEnsure : List Char → SubmarinerSpec → Option GoError

/-- The context message wrapped around a PSK secret creation failure. -/
def pskErrMsg : List Char := "Error creating PSK secret for cluster".toList

/-- The context message wrapped around a Submariner CR apply failure. -/
def deployErrMsg : List Char := "Submariner deployment failed".toList

/-- Embedding of the Submariner deploy operation: ensure the PSK secret,
build the spec, ensure the Submariner custom resource; each failure is
returned wrapped with its context message. -/
def Submariner (env : DeployEnv) (options : SubmarinerOptions) (brokerInfo : BrokerInfo)
    (brokerSecret : Secret) (netconfig : GlobalnetConfig)
    (repositoryInfo : RepositoryInfo) : Option GoError :=
  match env.secretEnsure OperatorNamespace brokerInfo.IPSecPSK with
  | Except.error err => statusError (some err) pskErrMsg
  | Except.ok pskSecret =>
    let submarinerSpec :=
      populateSubmarinerSpec options brokerInfo brokerSecret pskSecret netconfig repositoryInfo
    match env.submarinercrEnsure OperatorNamespace submarinerSpec with
    | some err => statusError (some err) deployErrMsg
    | none => none

/-- The external calls the deploy operation can make, recorded for the trace. -/
inductive DeployCall where
  | secretEnsureCall : List Char → Secret → DeployCall
  | submarinercrEnsureCall : List Char → SubmarinerSpec → DeployCall

/-- Whether a recorded call is a secret.Ensure call. -/
def DeployCall.isSecretEnsureCall : DeployCall → Bool
  | DeployCall.secretEnsureCall _ _ => true
  | DeployCall.submarinercrEnsureCall _ _ => false

/-- Whether a recorded call is a submarinercr.Ensure call. -/
def DeployCall.isSubmarinercrEnsureCall : DeployCall → Bool
  | DeployCall.secretEnsureCall _ _ => false
  | DeployCall.submarinercrEnsureCall _ _ => true

/-- The Submariner deploy operation instrumented with the list of external
calls it performs, in order; its result component agrees with Submariner. -/
def SubmarinerTraced (env : DeployEnv) (options : SubmarinerOptions)
    (brokerInfo : BrokerInfo) (brokerSecret : Secret) (netconfig : GlobalnetConfig)
    (repositoryInfo : RepositoryInfo) : Option GoError × List DeployCall :=
  match env.secretEnsure OperatorNamespace brokerInfo.IPSecPSK with
  | Except.error err =>
    (statusError (some err) pskErrMsg,
      [DeployCall.secretEnsureCall OperatorNamespace brokerInfo.IPSecPSK])
  | Except.ok pskSecret =>
    let submarinerSpec :=
      populateSubmarinerSpec options brokerInfo brokerSecret pskSecret netconfig repositoryInfo
    match env.submarinercrEnsure OperatorNamespace submarinerSpec with
    | some err =>
      (statusError (some err) deployErrMsg,
        [DeployCall.secretEnsureCall OperatorNamespace brokerInfo.IPSecPSK,
          DeployCall.submarinercrEnsureCall OperatorNamespace submarinerSpec])
    | none =>
      (none,
        [DeployCall.secretEnsureCall OperatorNamespace brokerInfo.IPSecPSK,
          DeployCall.submarinercrEnsureCall OperatorNamespace submarinerSpec])

lemma SubmarinerTraced_fst (env : DeployEnv) (options : SubmarinerOptions)
    (brokerInfo : BrokerInfo) (brokerSecret : Secret) (netconfig : GlobalnetConfig)
    (repositoryInfo : RepositoryInfo) :
    (SubmarinerTraced env options brokerInfo brokerSecret netconfig repositoryInfo).1 =
      Submariner env options brokerInfo brokerSecret netconfig repositoryInfo := by
  simp only [SubmarinerTraced, Submariner]
  cases env.secretEnsure OperatorNamespace brokerInfo.IPSecPSK with
  | error err => rfl
  | ok pskSecret =>
    dsimp only
    cases env.submarinercrEnsure OperatorNamespace
        (populateSubmarinerSpec options brokerInfo brokerSecret pskSecret netconfig
          repositoryInfo) with
    | none => rfl
    | some err => rfl

/-- C3 -- the deploy operation fails exactly when one of its two external
steps fails: a PSK secret failure is returned wrapped with "Error creating
PSK secret for cluster", a CR apply failure is returned wrapped with
"Submariner deployment failed", and when both steps succeed it returns nil. -/
theorem Submariner_error_propagation (env : DeployEnv) (options : SubmarinerOptions)
    (brokerInfo : BrokerInfo) (brokerSecret : Secret) (netconfig : GlobalnetConfig)
    (repositoryInfo : RepositoryInfo) :
    (∀ e, env.secretEnsure OperatorNamespace brokerInfo.IPSecPSK = Except.error e →
      Submariner env options brokerInfo brokerSecret netconfig repositoryInfo =
        some (GoError.wrapped pskErrMsg e)) ∧
    (∀ psk e, env.secretEnsure OperatorNamespace brokerInfo.IPSecPSK = Except.ok psk →
      env.submarinercrEnsure OperatorNamespace
          (populateSubmarinerSpec options brokerInfo brokerSecret psk netconfig
            repositoryInfo) = some e →
      Submariner env options brokerInfo brokerSecret netconfig repositoryInfo =
        some (GoError.wrapped deployErrMsg e)) ∧
    (∀ psk, env.secretEnsure OperatorNamespace brokerInfo.IPSecPSK = Except.ok psk →
      env.submarinercrEnsure OperatorNamespace
          (populateSubmarinerSpec options brokerInfo brokerSecret psk netconfig
            repositoryInfo) = none →
      Submariner env options brokerInfo brokerSecret netconfig repositoryInfo = none) := by
  refine ⟨?_, ?_, ?_⟩
  · intro e he
    simp [Submariner, he, statusError]
  · intro psk e h1 h2
    simp [Submariner, h1, h2, statusError]
  · intro psk h1 h2
    simp [Submariner, h1, h2]

/-- Deploy environment in which PSK secret creation fails. -/
def envPskFailEx : DeployEnv :=
  { secretEnsure := fun _ _ => Except.error (GoError.base ("no access".toList))
    submarinercrEnsure := fun _ _ => none }

/-- Deploy environment in which the Submariner CR apply fails. -/
def envCRFailEx : DeployEnv :=
  { secretEnsure := fun _ _ => Except.ok secEx
    submarinercrEnsure := fun _ _ => some (GoError.base ("apply failed".toList)) }

/-- Deploy environment in which both external steps succeed. -/
def envOkEx : DeployEnv :=
  { secretEnsure := fun _ _ => Except.ok secEx
    submarinercrEnsure := fun _ _ => none }

/-- Witness for C3 at concrete environments exercising all three outcomes. -/
theorem Submariner_error_propagation_witness :
    Submariner envPskFailEx optEx biEx secEx ncEx riEx =
      some (GoError.wrapped pskErrMsg (GoError.base ("no access".toList))) ∧
    Submariner envCRFailEx optEx biEx secEx ncEx riEx =
      some (GoError.wrapped deployErrMsg (GoError.base ("apply failed".toList))) ∧
    Submariner envOkEx optEx biEx secEx ncEx riEx = none := by
  refine ⟨?_, ?_, ?_⟩
  · exact (Submariner_error_propagation envPskFailEx optEx biEx secEx ncEx riEx).1
      (GoError.base ("no access".toList)) rfl
  · exact (Submariner_error_propagation envCRFailEx optEx biEx secEx ncEx riEx).2.1
      secEx (GoError.base ("apply failed".toList)) rfl rfl
  · exact (Submariner_error_propagation envOkEx optEx biEx secEx ncEx riEx).2.2
      secEx rfl rfl

/-- C7 -- per call, the deploy operation performs each external step at most
once, and after a PSK secret failure the Submariner CR apply never appears in
the call trace. -/
theorem Submariner_no_retry (env : DeployEnv) (options : SubmarinerOptions)
    (brokerInfo : BrokerInfo) (brokerSecret : Secret) (netconfig : GlobalnetConfig)
    (repositoryInfo : RepositoryInfo) :
    (SubmarinerTraced env options brokerInfo brokerSecret netconfig
        repositoryInfo).2.countP (fun c => c.isSecretEnsureCall) ≤ 1 ∧
    (SubmarinerTraced env options brokerInfo brokerSecret netconfig
        repositoryInfo).2.countP (fun c => c.isSubmarinercrEnsureCall) ≤ 1 ∧
    (∀ e, env.secretEnsure OperatorNamespace brokerInfo.IPSecPSK = Except.error e →
      ∀ c ∈ (SubmarinerTraced env options brokerInfo brokerSecret netconfig
          repositoryInfo).2, c.isSubmarinercrEnsureCall = false) := by
  cases h1 : env.secretEnsure OperatorNamespace brokerInfo.IPSecPSK with
  | error err =>
    refine ⟨?_, ?_, ?_⟩
    · simp [SubmarinerTraced, h1, List.countP_cons, List.countP_nil,
        DeployCall.isSecretEnsureCall]
    · simp [SubmarinerTraced, h1, List.countP_cons, List.countP_nil,
        DeployCall.isSubmarinercrEnsureCall]
    · intro e _ c hc
      simp only [SubmarinerTraced, h1, List.mem_singleton] at hc
      subst hc
      rfl
  | ok pskSecret =>
    cases h2 : env.submarinercrEnsure OperatorNamespace
        (populateSubmarinerSpec options brokerInfo brokerSecret pskSecret netconfig
          repositoryInfo) with
    | none =>
      refine ⟨?_, ?_, ?_⟩
      · simp [SubmarinerTraced, h1, h2, List.countP_cons, List.countP_nil,
          DeployCall.isSecretEnsureCall, DeployCall.isSubmarinercrEnsureCall]
      · simp [SubmarinerTraced, h1, h2, List.countP_cons, List.countP_nil,
          DeployCall.isSecretEnsureCall, DeployCall.isSubmarinercrEnsureCall]
      · intro e he
        simp at he
    | some err =>
      refine ⟨?_, ?_, ?_⟩
      · simp [SubmarinerTraced, h1, h2, List.countP_cons, List.countP_nil,
          DeployCall.isSecretEnsureCall, DeployCall.isSubmarinercrEnsureCall]
      · simp [SubmarinerTraced, h1, h2, List.countP_cons, List.countP_nil,
          DeployCall.isSecretEnsureCall, DeployCall.isSubmarinercrEnsureCall]
      · intro e he
        simp at he

/-- Witness for C7: with a failing PSK secret step, the trace holds one
secret call and no CR apply call. -/
theorem Submariner_no_retry_witness :
    (SubmarinerTraced envPskFailEx optEx biEx secEx ncEx riEx).2.countP
      (fun c => c.isSecretEnsureCall) ≤ 1 ∧
    (SubmarinerTraced envPskFailEx optEx biEx secEx ncEx riEx).2.countP
      (fun c => c.isSubmarinercrEnsureCall) = 0 := by
  have h := Submariner_no_retry envPskFailEx optEx biEx secEx ncEx riEx
  refine ⟨h.1, ?_⟩
  rw [List.countP_eq_zero]
  intro c hc
  simp [h.2.2 (GoError.base ("no access".toList)) rfl c hc]

/-- Models the parts of cluster.Info the cleanup routine passes along. -/
structure ClusterInfo where
  Name : List Char

/-- Models the cloud-provider gateway deployer: the result its Cleanup call
reports for this cluster. -/
structure GatewayDeployer where
  CleanupResult : Option GoError

/-- Models api.GatewayDeployer.Cleanup. -/
def GatewayDeployer.Cleanup (g : GatewayDeployer) : Option GoError :=
  g.CleanupResult

/-- The external call the cleanup routine makes: generic.RunOnCluster, which
receives the cluster info and the gateway-deployer callback. -/
structure CleanupEnv where
  RunOnCluster : ClusterInfo → (GatewayDeployer → Option GoError) → Option GoError

/-- The context message wrapped around a generic cleanup failure. -/
def cleanupErrMsg : List Char := "Failed to cleanup generic K8s cluster".toList

/-- Embedding of GenericCluster: delegates to generic.RunOnCluster with a
callback invoking only gwDeployer.Cleanup, and returns its error wrapped
with the cleanup context message. -/
def GenericCluster (env : CleanupEnv) (clusterInfo : ClusterInfo) : Option GoError :=
  let err := env.RunOnCluster clusterInfo (fun gwDeployer => gwDeployer.Cleanup)
  statusError err cleanupErrMsg

/-- C5 -- GenericCluster's result is exactly the delegated RunOnCluster
result on the Cleanup callback: nil when the delegation succeeds, its error
wrapped with "Failed to cleanup generic K8s cluster" when it fails. -/
theorem GenericCluster_cleanup_delegation (env : CleanupEnv) (clusterInfo : ClusterInfo) :
    (env.RunOnCluster clusterInfo (fun gwDeployer => gwDeployer.Cleanup) = none →
      GenericCluster env clusterInfo = none) ∧
    (∀ e, env.RunOnCluster clusterInfo (fun gwDeployer => gwDeployer.Cleanup) = some e →
      GenericCluster env clusterInfo = some (GoError.wrapped cleanupErrMsg e)) := by
  constructor
  · intro h
    simp [GenericCluster, h, statusError]
  · intro e h
    simp [GenericCluster, h, statusError]

/-- Cleanup environment whose delegation runs the callback on a deployer that
fails. -/
def envCleanupFailEx : CleanupEnv :=
  { RunOnCluster := fun _ cb => cb { CleanupResult := some (GoError.base ("gw".toList)) } }

/-- Cleanup environment whose delegation runs the callback on a deployer that
succeeds. -/
def envCleanupOkEx : CleanupEnv :=
  { RunOnCluster := fun _ cb => cb { CleanupResult := none } }

/-- Witness for C5 at concrete environments for both delegation outcomes. -/
theorem GenericCluster_cleanup_delegation_witness :
    GenericCluster envCleanupOkEx { Name := "east".toList } = none ∧
    GenericCluster envCleanupFailEx { Name := "east".toList } =
      some (GoError.wrapped cleanupErrMsg (GoError.base ("gw".toList))) := by
  constructor
  · exact (GenericCluster_cleanup_delegation envCleanupOkEx { Name := "east".toList }).1 rfl
  · exact (GenericCluster_cleanup_delegation envCleanupFailEx { Name := "east".toList }).2
      (GoError.base ("gw".toList)) rfl
